import Mathlib

/-
Verification of the SGLD Bayesian neural network wrapper
(`robo/models/bnn.py`, class `SGLDNet`).

Shallow embedding conventions:
* numpy arrays are `List (List ℝ)` (row-major matrices) or `List ℝ` (vectors);
  `floatX` dtype casts are identities and are dropped; float arithmetic is
  idealized as real arithmetic.
* The theano/lasagne network and the `SGLDSampler` are external collaborators:
  the network forward pass with a loaded parameter snapshot is an abstract
  function `S → Mat → Mat`, the sampler step is an abstract function
  `P → Mat → Mat → P` on an opaque live parameter state `P`, and
  `lasagne.layers.get_all_param_values` is an abstract `getP : P → S`.
* A Python method that can raise is embedded as `Except PyErr _`;
  `Except.error` models a raised exception, `Except.ok none` models a bare
  `return` (returning `None`), `Except.ok (some v)` a returned value.
* `collections.deque(maxlen=n)` is a `List` with the evicting `dequeAppend`.
* Logging calls (`logging.info`/`logging.error`) and the `compute_err`
  diagnostic at `i % 1000 == 0` (lines 152-160) read but never write the
  state, so they are dropped.
-/

namespace BNN

/-- Row-major real matrix standing for a 2-d numpy array. -/
abbrev Mat : Type := List (List ℝ)

/-- Python `collections.deque(maxlen=n)` append (`bnn.py` line 46 creates the
buffer, line 162 appends): when the buffer already holds `maxlen` entries the
oldest (leftmost) entry is evicted; a deque with `maxlen = 0` stays empty. -/
def dequeAppend (maxlen : ℕ) (q : List α) (a : α) : List α :=
  if maxlen = 0 then []
  else if q.length < maxlen then q ++ [a]
  else q.tail ++ [a]

/-- Mean of a list of reals, `np.mean` on a 1-d array: sum divided by count. -/
noncomputable def lmean (l : List ℝ) : ℝ := l.sum / l.length

/-- Population variance of a list of reals, `np.var` on a 1-d array with the
default `ddof=0`: mean squared deviation, divided by the count. -/
noncomputable def lvar (l : List ℝ) : ℝ :=
  (l.map (fun a => (a - lmean l) ^ 2)).sum / l.length

/-- Column `j` of a row-major matrix. -/
def col (M : Mat) (j : ℕ) : List ℝ := M.map (fun r => r.getD j 0)

/-- Column `0` of a matrix: the `[:, 0]` slice applied to the `(N, 1)` network
output in `predict` (line 222) and `sample_functions` (line 258). -/
def col0 (M : Mat) : List ℝ := M.map (fun r => r.getD 0 0)

/-- Number of columns of a matrix, read off the first row (numpy `shape[1]`
of a rectangular array). -/
def ncols (M : Mat) : ℕ := (M.headD []).length

/-- Per-column means, `np.mean(x, axis=0)` (line 282). -/
noncomputable def npMeanCols (x : Mat) : List ℝ :=
  (List.range (ncols x)).map (fun j => lmean (col x j))

/-- Per-column standard deviations, `np.std(x, axis=0)` (line 284). -/
noncomputable def npStdCols (x : Mat) : List ℝ :=
  (List.range (ncols x)).map (fun j => Real.sqrt (lvar (col x j)))

/-- `SGLDNet.normalize_inputs(x, mean=None, std=None)` (lines 266-285):
missing statistics are recomputed per column from `x`; the result is the
broadcast `(x - mean) / std` together with the statistics used. -/
noncomputable def normalize_inputs (x : Mat)
    (mean? std? : Option (List ℝ)) : Mat × List ℝ × List ℝ :=
  let mean := mean?.getD (npMeanCols x)
  let std := std?.getD (npStdCols x)
  (x.map (fun r => List.zipWith (fun a q => (a - q.1) / q.2) r (mean.zip std)),
   mean, std)

/-- `SGLDNet.normalize_targets(y, mean=None, std=None)` (lines 287-306) for
the `(N, 1)` target matrices this model produces (the network has a single
output unit), so the per-column statistics are the scalar statistics of the
only column. -/
noncomputable def normalize_targets (y : Mat)
    (mean? std? : Option ℝ) : Mat × ℝ × ℝ :=
  let mean := mean?.getD (lmean (col y 0))
  let std := std?.getD (Real.sqrt (lvar (col y 0)))
  (y.map (fun r => r.map (fun a => (a - mean) / std)), mean, std)

/-- `SGLDNet.denormalize(x, mean, std) = mean + x * std` (line 326), scalar
core of the numpy broadcast. -/
def denormalize (x mean std : ℝ) : ℝ := mean + x * std

/-- `denormalize` broadcast over a vector with scalar statistics (the shape
used on the length-`N` output columns in `predict` and `sample_functions`). -/
def denormVec (v : List ℝ) (mean std : ℝ) : List ℝ :=
  v.map (fun a => denormalize a mean std)

/-- `denormalize` broadcast over a matrix with per-column statistics. -/
def denormalizeMat (d : Mat) (mean std : List ℝ) : Mat :=
  d.map (fun r => List.zipWith (fun a q => denormalize a q.1 q.2) r (mean.zip std))

/-- `T.mean` of a matrix: the mean over all entries. -/
noncomputable def tmean (M : Mat) : ℝ :=
  (M.map List.sum).sum / ((M.map List.length).sum : ℕ)

/-- Elementwise `T.square(Y - out) / (noise_std ** 2)` (line 185). -/
noncomputable def sqErrMat (Y out : Mat) (noise_std : ℝ) : Mat :=
  List.zipWith (fun yr orow =>
    List.zipWith (fun y o => (y - o) ^ 2 / noise_std ^ 2) yr orow) Y out

/-- `SGLDNet.negativ_log_likelihood(net, X, Y, Xsize, wd, noise_std)`
(lines 167-191).  The symbolic network is split into its forward map
`forward` and the list of trainable parameter tensors `all_params`
(each flattened to a list of entries); the returned pair is
`(nll, all_params)` as in the source. -/
noncomputable def negativ_log_likelihood (forward : Mat → Mat)
    (all_params : List (List ℝ)) (X Y : Mat) (Xsize : ℕ)
    (wd noise_std : ℝ) : ℝ × List (List ℝ) :=
  let out := forward X
  let err := tmean (sqErrMat Y out noise_std)
  let prior_nll :=
    (all_params.map (fun p => (p.map (fun w => -(w ^ 2) * 0.5 * wd)).sum)).sum
  (err - prior_nll / (Xsize : ℝ), all_params)

/-- Gradient scaling constant of `train` (line 127):
`scale_grad = self.X.shape[0]`, the full-dataset row count. -/
def scale_grad (Xn : Mat) : ℕ := Xn.length

/-- The negative-log-posterior objective as worded by the specification:
the mini-batch mean of `(Y - f(X))^2 / noise_std^2` minus the prior term
`sum_p(-0.5 * wd * p^2)` divided by the full-dataset row count `N`. -/
noncomputable def specNLL (forward : Mat → Mat) (params : List (List ℝ))
    (X Y : Mat) (N : ℕ) (wd noise_std : ℝ) : ℝ :=
  tmean (sqErrMat Y (forward X) noise_std) -
    (params.map (fun p => (p.map (fun w => -0.5 * wd * w ^ 2)).sum)).sum / (N : ℝ)

/-- Python slice `M[start : start + bsize]` on a list of rows. -/
def slice (M : Mat) (start bsize : ℕ) : Mat := (M.drop start).take bsize

/-- The mini-batch drawn at iteration `i` (lines 145-148): the contiguous
slice of the dataset starting at `(i * bsize) % N`. -/
def minibatch (X : Mat) (bsize i : ℕ) : Mat :=
  slice X ((i * bsize) % X.length) bsize

/-- The sampling loop of `SGLDNet.train` (lines 143-164), with the remaining
iteration budget `n_iters - i` as structural fuel so that
`while i < n_iters and len(self.samples) < self.n_nets` is checked before
every iteration.  `stepFn` is `self.sampler.step` acting on the live
parameter state, `getP` is `lasagne.layers.get_all_param_values(self.net)`. -/
def trainLoopAux (stepFn : P → Mat → Mat → P) (getP : P → S) (X Y : Mat)
    (n_nets bsize burn_in : ℕ) : ℕ → ℕ → P → List S → ℕ × P × List S
  | 0, i, p, samples => (i, p, samples)
  | (fuel + 1), i, p, samples =>
    if samples.length < n_nets then
      let start := (i * bsize) % X.length
      let xmb := slice X start bsize
      let ymb := slice Y start bsize
      let p' := stepFn p xmb ymb
      let samples' :=
        if i % 200 = 0 ∧ burn_in ≤ i then dequeAppend n_nets samples (getP p')
        else samples
      trainLoopAux stepFn getP X Y n_nets bsize burn_in fuel (i + 1) p' samples'
    else (i, p, samples)

/-- The full sampling loop run by `train`: `i = 0`, buffer freshly cleared
(line 114), fuel `n_iters`.  Returns the final iteration counter, the final
live parameter state and the collected sample buffer. -/
def trainLoop (stepFn : P → Mat → Mat → P) (getP : P → S) (X Y : Mat)
    (n_nets bsize burn_in n_iters : ℕ) (p0 : P) : ℕ × P × List S :=
  trainLoopAux stepFn getP X Y n_nets bsize burn_in n_iters 0 p0 []

/-- The trajectory of the live parameter state: `paramsAfter k` is the state
after the sampler steps of iterations `0, ..., k-1` have been applied to the
initial state `p0`. -/
def paramsAfter (stepFn : P → Mat → Mat → P) (X Y : Mat) (bsize : ℕ)
    (p0 : P) : ℕ → P
  | 0 => p0
  | (k + 1) =>
    stepFn (paramsAfter stepFn X Y bsize p0 k)
      (slice X ((k * bsize) % X.length) bsize)
      (slice Y ((k * bsize) % X.length) bsize)

/-- Pure control skeleton of the sampling loop: from fuel, iteration counter
and current buffer occupancy it returns the final iteration counter and the
list of iterations at which a snapshot is appended.  The loop control of
`trainLoopAux` depends only on this data, which makes the skeleton decidable
on concrete hyperparameters. -/
def loopCtrl (n_nets burn_in : ℕ) : ℕ → ℕ → ℕ → ℕ × List ℕ
  | 0, i, _ => (i, [])
  | (fuel + 1), i, count =>
    if count < n_nets then
      if i % 200 = 0 ∧ burn_in ≤ i then
        let r := loopCtrl n_nets burn_in fuel (i + 1) (count + 1)
        (r.1, i :: r.2)
      else loopCtrl n_nets burn_in fuel (i + 1) count
    else (i, [])

/-- Python exceptions that the embedded methods can raise. -/
inductive PyErr : Type where
  | attributeError : PyErr
  | indexError : PyErr
  | typeError : PyErr
deriving DecidableEq

/-- State of a `SGLDNet` instance over an opaque parameter-snapshot type `S`
(`__init__`, lines 15-56; the rng and the symbolic placeholders `Xt`, `Yt`
are external).  `net` records whether the `self.net` / `self.single_predict`
attributes exist (they are created by `train`, line 108/112); the `Option`
data fields start as `None`. -/
structure SGLDNet (S : Type) where
  n_nets : ℕ
  l_rate : ℝ
  n_iters : ℕ
  noise_std : ℝ
  wd : ℝ
  bsize : ℕ
  burn_in : ℕ
  precondition : Bool
  is_trained : Bool
  normalize_output : Bool
  normalize_input : Bool
  samples : List S
  net : Bool
  X : Option Mat
  x_mean : Option (List ℝ)
  x_std : Option (List ℝ)
  Y : Option Mat
  y_mean : Option ℝ
  y_std : Option ℝ

/-- `SGLDNet.__init__` with explicit hyperparameters (defaults at the call
sites of the claims): fresh instance, untrained, empty buffer. -/
def SGLDNet.init (S : Type) (n_nets : ℕ) (l_rate : ℝ) (n_iters : ℕ)
    (noise_std wd : ℝ) (bsize burn_in : ℕ)
    (precondition normalize_output normalize_input : Bool) : SGLDNet S :=
  { n_nets := n_nets, l_rate := l_rate, n_iters := n_iters,
    noise_std := noise_std, wd := wd, bsize := bsize, burn_in := burn_in,
    precondition := precondition, is_trained := false,
    normalize_output := normalize_output, normalize_input := normalize_input,
    samples := [], net := false,
    X := none, x_mean := none, x_std := none,
    Y := none, y_mean := none, y_std := none }

/-- The per-sample forward evaluations of `predict` (lines 220-223): for each
stored sample in buffer order, load it into the live network (which must
exist: `self.net`, `self.single_predict`, accessed once per loop iteration)
and keep column 0 of the output. -/
def predictRows (forward : S → Mat → Mat) (netReady : Bool) (X_ : Mat) :
    List S → Except PyErr (List (List ℝ))
  | [] => Except.ok []
  | s :: rest =>
    if netReady then
      match predictRows forward netReady X_ rest with
      | Except.error e => Except.error e
      | Except.ok t => Except.ok (col0 (forward s X_) :: t)
    else Except.error PyErr.attributeError

/-- A numpy value that is either a 0-d scalar or a 1-d array: the axis-0
reductions at lines 225-226 collapse an empty stack to a 0-d scalar, which
the final `[:, None]` reshape at line 232 cannot slice. -/
inductive NpVec : Type where
  | scalar : ℝ → NpVec
  | vec : List ℝ → NpVec

/-- Per-column means of a nonempty stack of output rows. -/
noncomputable def npMeansOf (p : Mat) : List ℝ :=
  (List.range (ncols p)).map (fun j => lmean (col p j))

/-- Per-column population variances of a nonempty stack of output rows. -/
noncomputable def npVarsOf (p : Mat) : List ℝ :=
  (List.range (ncols p)).map (fun j => lvar (col p j))

/-- `np.mean(np.asarray(p), axis=0)` (line 225): a 1-d array of per-column
means for a nonempty stack of rows; for the empty stack, `np.asarray([])` is
1-dimensional of length 0 and the axis-0 reduction yields a 0-d NaN scalar
(the division by zero `0 / 0` stands in for NaN, since the value is never
returned: the reshape raises first). -/
noncomputable def npMeanAxis0 (p : Mat) : NpVec :=
  match p with
  | [] => NpVec.scalar (0 / 0)
  | _ => NpVec.vec (npMeansOf p)

/-- `np.var(np.asarray(p), axis=0)` (line 226, default `ddof=0`): as
`npMeanAxis0` but with population variances. -/
noncomputable def npVarAxis0 (p : Mat) : NpVec :=
  match p with
  | [] => NpVec.scalar (0 / 0)
  | _ => NpVec.vec (npVarsOf p)

/-- `denormalize` applied to the mean (line 230): the stored target
statistics have shape `(1,)`, so broadcasting them against a 0-d scalar
produces a length-1 1-d array, and against a 1-d array acts entrywise. -/
def denormNpVec (x : NpVec) (ym ys : ℝ) : NpVec :=
  match x with
  | NpVec.scalar a => NpVec.vec [denormalize a ym ys]
  | NpVec.vec v => NpVec.vec (denormVec v ym ys)

/-- The `[:, None]` reshape at line 232, with the `(N, 1)` column result
represented by its only column: a 0-d scalar cannot be indexed with a slice
and raises an `IndexError`. -/
def reshapeCol (x : NpVec) : Except PyErr (List ℝ) :=
  match x with
  | NpVec.scalar _ => Except.error PyErr.indexError
  | NpVec.vec v => Except.ok v

/-- `SGLDNet.predict(X_test)` (lines 193-232).  An untrained model logs an
error and falls off the method body: a bare `return`, i.e. `Except.ok none`.
Otherwise the test inputs are normalized with the stored training statistics,
every buffered sample is forward-evaluated, the per-test-point mean and
population variance are formed over the stacked outputs, only the mean is
denormalized, and both results pass through the `[:, None]` reshape (the
mean first, matching the tuple evaluation order of line 232). -/
noncomputable def predict (forward : S → Mat → Mat) (m : SGLDNet S)
    (X_test : Mat) : Except PyErr (Option (List ℝ × List ℝ)) :=
  if m.is_trained = false then Except.ok none
  else
    let X_ :=
      if m.normalize_input then (normalize_inputs X_test m.x_mean m.x_std).1
      else X_test
    match predictRows forward m.net X_ m.samples with
    | Except.error e => Except.error e
    | Except.ok p =>
      let mvec := npMeanAxis0 p
      let v := npVarAxis0 p
      let mFinal : Except PyErr NpVec :=
        if m.normalize_output then
          match m.y_mean, m.y_std with
          | some ym, some ys => Except.ok (denormNpVec mvec ym ys)
          | _, _ => Except.error PyErr.typeError
        else Except.ok mvec
      match mFinal with
      | Except.error e => Except.error e
      | Except.ok mv =>
        match reshapeCol mv with
        | Except.error e => Except.error e
        | Except.ok mcol =>
          match reshapeCol v with
          | Except.error e => Except.error e
          | Except.ok vcol => Except.ok (some (mcol, vcol))

/-- Row construction of `sample_functions` (lines 256-262): row `i` loads the
buffer's `i`-th sample into the live network (`self.net` must exist, else an
`AttributeError`; the index must be in range, else an `IndexError`), forward
evaluates, and denormalizes when output normalization is on (raising a
`TypeError` if the stored scalar statistics are still `None`). -/
def sfRows (forward : S → Mat → Mat) (m : SGLDNet S) (Xn : Mat) :
    ℕ → ℕ → Except PyErr (List (List ℝ))
  | _, 0 => Except.ok []
  | i, (k + 1) =>
    if m.net then
      match m.samples[i]? with
      | none => Except.error PyErr.indexError
      | some s =>
        let out := col0 (forward s Xn)
        let rowE : Except PyErr (List ℝ) :=
          if m.normalize_output then
            match m.y_mean, m.y_std with
            | some ym, some ys => Except.ok (denormVec out ym ys)
            | _, _ => Except.error PyErr.typeError
          else Except.ok out
        match rowE with
        | Except.error e => Except.error e
        | Except.ok r =>
          match sfRows forward m Xn (i + 1) k with
          | Except.error e => Except.error e
          | Except.ok rest => Except.ok (r :: rest)
    else Except.error PyErr.attributeError

/-- `SGLDNet.sample_functions(X_test, n_funcs)` (lines 234-264).  There is no
`is_trained` guard: the inputs are normalized with the stored statistics (the
fit path recomputes them from `X_test` when they are still `None`), then rows
`0, ..., n_funcs - 1` are built by sequential indexing into the buffer. -/
noncomputable def sample_functions (forward : S → Mat → Mat) (m : SGLDNet S)
    (X_test : Mat) (n_funcs : ℕ) : Except PyErr (List (List ℝ)) :=
  let Xn :=
    if m.normalize_input then (normalize_inputs X_test m.x_mean m.x_std).1
    else X_test
  sfRows forward m Xn 0 n_funcs

/-- `SGLDNet.train(X, Y)` (lines 90-165).  The lasagne/theano glue
(lines 108-112, 129-132) builds the live network and the sampler updates;
these are the abstract `stepFn`, `getP` and the freshly initialized live
parameter state `p0`.  The buffer is cleared, the data is normalized (the
statistics fields are only assigned when the corresponding flag is set), the
batch size is reduced to the row count when the dataset is smaller than a
batch (lines 138-141), the sampling loop runs, and `is_trained` is set. -/
noncomputable def train (stepFn : P → Mat → Mat → P) (getP : P → S) (p0 : P)
    (m : SGLDNet S) (X Y : Mat) : SGLDNet S :=
  let Xn := if m.normalize_input then (normalize_inputs X none none).1 else X
  let xm :=
    if m.normalize_input then some (normalize_inputs X none none).2.1
    else m.x_mean
  let xs :=
    if m.normalize_input then some (normalize_inputs X none none).2.2
    else m.x_std
  let Yn := if m.normalize_output then (normalize_targets Y none none).1 else Y
  let ym :=
    if m.normalize_output then some (normalize_targets Y none none).2.1
    else m.y_mean
  let ys :=
    if m.normalize_output then some (normalize_targets Y none none).2.2
    else m.y_std
  let bsize1 := if Xn.length < m.bsize then Xn.length else m.bsize
  let res :=
    trainLoop stepFn getP Xn Yn m.n_nets bsize1 m.burn_in m.n_iters p0
  { m with
    net := true,
    X := some Xn, x_mean := xm, x_std := xs,
    Y := some Yn, y_mean := ym, y_std := ys,
    bsize := bsize1,
    samples := res.2.2,
    is_trained := true }

/-- Forward evaluator used by the concrete witness runs: parameter snapshots
are real scalars and the network output at any input is the single-row,
single-column matrix `[[s]]`. -/
def sampleForward (s : ℝ) (_X : Mat) : Mat := [[s]]

/-- Concrete trained model state used by the `predict` witness: two collected
samples, output normalization on with stored statistics `(0, 1)`. -/
def mC4 : SGLDNet ℝ :=
  { n_nets := 2, l_rate := 0.001, n_iters := 10, noise_std := 0.1,
    wd := 0.00001, bsize := 1, burn_in := 0, precondition := true,
    is_trained := true, normalize_output := true, normalize_input := false,
    samples := [0, 2], net := true,
    X := none, x_mean := none, x_std := none,
    Y := none, y_mean := some 0, y_std := some 1 }

/-- Concrete trained model state used by the `sample_functions` witness: two
collected samples, no output normalization. -/
def mC6 : SGLDNet ℝ :=
  { n_nets := 2, l_rate := 0.001, n_iters := 10, noise_std := 0.1,
    wd := 0.00001, bsize := 1, burn_in := 0, precondition := true,
    is_trained := true, normalize_output := false, normalize_input := false,
    samples := [3, 4], net := true,
    X := none, x_mean := none, x_std := none,
    Y := none, y_mean := none, y_std := none }

/-- Concrete model state that finished training with an empty posterior (as
after `burn_in >= n_iters`): trained flag set, buffer empty. -/
def mC8 : SGLDNet ℝ :=
  { n_nets := 2, l_rate := 0.001, n_iters := 10, noise_std := 0.1,
    wd := 0.00001, bsize := 1, burn_in := 20, precondition := true,
    is_trained := true, normalize_output := false, normalize_input := false,
    samples := [], net := true,
    X := none, x_mean := none, x_std := none,
    Y := none, y_mean := none, y_std := none }

/-- Variant of `mC8` with output normalization on and stored statistics. -/
def mC8w : SGLDNet ℝ :=
  { n_nets := 2, l_rate := 0.001, n_iters := 10, noise_std := 0.1,
    wd := 0.00001, bsize := 1, burn_in := 20, precondition := true,
    is_trained := true, normalize_output := true, normalize_input := false,
    samples := [], net := true,
    X := none, x_mean := none, x_std := none,
    Y := none, y_mean := some 0, y_std := some 1 }

/-- Concrete freshly constructed model with a large configured batch size,
used by the `train` frame witness. -/
def mC10 : SGLDNet ℝ :=
  SGLDNet.init ℝ 5 0.001 10 0.1 0.00001 1000 0 true false false

/-- Fresh instance with the constructor's default hyperparameters
(`n_nets=100, l_rate=1e-3, n_iters=5e4, noise_std=0.1, wd=1e-5, bsize=10,
burn_in=1000, precondition=True, normalize_output=True,
normalize_input=True`). -/
def mFresh : SGLDNet ℝ :=
  SGLDNet.init ℝ 100 0.001 50000 0.1 0.00001 10 1000 true true true

/-! Theorems. -/

theorem dequeAppend_of_lt {maxlen : ℕ} {q : List α} (a : α)
    (h : q.length < maxlen) : dequeAppend maxlen q a = q ++ [a] := by
  have hm : maxlen ≠ 0 := by omega
  simp [dequeAppend, hm, h]

theorem dequeAppend_of_full {maxlen : ℕ} {q : List α} (a : α)
    (hm : maxlen ≠ 0) (h : ¬ q.length < maxlen) :
    dequeAppend maxlen q a = q.tail ++ [a] := by
  simp only [dequeAppend, if_neg hm, if_neg h]

/-- Folding any append sequence into an empty deque keeps exactly the
most recent `n` elements, in insertion order. -/
theorem foldl_dequeAppend (n : ℕ) (xs : List α) :
    List.foldl (dequeAppend n) [] xs = xs.drop (xs.length - n) := by
  induction xs using List.reverseRecOn with
  | nil => simp
  | append_singleton xs x ih =>
    rw [List.foldl_append, ih]
    simp only [List.foldl_cons, List.foldl_nil]
    rcases Nat.eq_zero_or_pos n with hn | hn
    · subst hn
      simp [dequeAppend]
    · rcases Nat.lt_or_ge xs.length n with hlen | hlen
      · have h0 : xs.length - n = 0 := by omega
        have h1 : xs.length + 1 - n = 0 := by omega
        rw [h0, List.drop_zero, dequeAppend_of_lt x hlen]
        simp [h1]
      · have hnot : ¬ (xs.drop (xs.length - n)).length < n := by
          simp [List.length_drop]; omega
        have hne : n ≠ 0 := by omega
        rw [dequeAppend_of_full x hne hnot, List.tail_drop]
        have harith : xs.length + 1 - n = (xs.length - n) + 1 := by omega
        rw [List.length_append, List.length_singleton, harith,
          List.drop_append_of_le_length (by omega)]

/-- Claim C3: for every sequence of appends, the sample buffer's length never
exceeds `n_nets`, and after more than `n_nets` appends it contains exactly the
most recently appended `n_nets` elements in insertion order (oldest evicted
first). -/
theorem deque_fifo (n : ℕ) (xs : List α) :
    (List.foldl (dequeAppend n) [] xs).length ≤ n ∧
    (n < xs.length →
      List.foldl (dequeAppend n) [] xs = xs.drop (xs.length - n)) := by
  constructor
  · rw [foldl_dequeAppend]
    simp [List.length_drop]
    omega
  · intro _
    exact foldl_dequeAppend n xs

/-- Concrete run of `deque_fifo`: capacity 2, three appends keep `[2, 3]`. -/
theorem deque_fifo_witness :
    (List.foldl (dequeAppend 2) ([] : List ℕ) [1, 2, 3]).length ≤ 2 ∧
      List.foldl (dequeAppend 2) ([] : List ℕ) [1, 2, 3] = [2, 3] :=
  ⟨(deque_fifo 2 [1, 2, 3]).1, (deque_fifo 2 [1, 2, 3]).2 (by decide)⟩

/-- Claim C5: at every iteration `i` the mini-batch is the contiguous slice
of the dataset starting at `(i * bsize) % N` of length at most `bsize`, with
no wraparound: element `k` of the batch is element `start + k` of the
dataset, and when `start + bsize > N` the batch is just the remaining
`N - start` tail rows. -/
theorem minibatch_slice (X : Mat) (bsize i : ℕ) (hN : 0 < X.length) :
    minibatch X bsize i = slice X ((i * bsize) % X.length) bsize ∧
    (minibatch X bsize i).length =
      min bsize (X.length - (i * bsize) % X.length) ∧
    (∀ k, k < (minibatch X bsize i).length →
      (minibatch X bsize i)[k]? = X[(i * bsize) % X.length + k]?) ∧
    (X.length < (i * bsize) % X.length + bsize →
      (minibatch X bsize i).length = X.length - (i * bsize) % X.length) := by
  refine ⟨rfl, ?_, ?_, ?_⟩
  · simp [minibatch, slice]
  · intro k hk
    simp only [minibatch, slice] at hk ⊢
    rw [List.getElem?_take_of_lt
        (by simp [List.length_take, List.length_drop] at hk; omega),
      List.getElem?_drop]
  · intro hover
    have hlt : (i * bsize) % X.length < X.length := Nat.mod_lt _ hN
    simp [minibatch, slice, List.length_take, List.length_drop]
    omega

/-- Concrete run of `minibatch_slice`: six rows, `bsize = 4`, iteration 1
starts at row 4 and yields the truncated two-row tail. -/
theorem minibatch_slice_witness :
    (0 : ℕ) < ([[1], [2], [3], [4], [5], [6]] : Mat).length ∧
    (minibatch [[1], [2], [3], [4], [5], [6]] 4 1 =
        slice [[1], [2], [3], [4], [5], [6]] ((1 * 4) % 6) 4 ∧
      (minibatch [[1], [2], [3], [4], [5], [6]] 4 1).length = min 4 (6 - (1 * 4) % 6) ∧
      (∀ k, k < (minibatch [[1], [2], [3], [4], [5], [6]] 4 1).length →
        (minibatch ([[1], [2], [3], [4], [5], [6]] : Mat) 4 1)[k]? =
          ([[1], [2], [3], [4], [5], [6]] : Mat)[(1 * 4) % 6 + k]?) ∧
      (6 < (1 * 4) % 6 + 4 →
        (minibatch [[1], [2], [3], [4], [5], [6]] 4 1).length = 6 - (1 * 4) % 6)) := by
  constructor
  · simp
  · have h := minibatch_slice ([[1], [2], [3], [4], [5], [6]] : Mat) 4 1 (by simp)
    simpa using h

/-- Claim C2: the negative-log-posterior objective built at train time, with
`Xsize` instantiated to `scale_grad` of the full dataset as on lines 127-130,
equals the mini-batch mean of `(Y - f(X))^2 / noise_std^2` minus the prior
term `sum_p(-0.5 * wd * p^2)` divided by the full-dataset row count `N`
(not the batch size); row count is preserved by input normalization, so the
normalized dataset used for `scale_grad` has the raw dataset's `N` rows. -/
theorem nll_matches_spec (forward : Mat → Mat) (params : List (List ℝ))
    (xmb ymb : Mat) (Xfull : Mat) (wd noise_std : ℝ) :
    (negativ_log_likelihood forward params xmb ymb (scale_grad Xfull)
        wd noise_std).1 =
      specNLL forward params xmb ymb Xfull.length wd noise_std ∧
    scale_grad Xfull = Xfull.length ∧
    ∀ (x : Mat) (a b : Option (List ℝ)),
      ((normalize_inputs x a b).1).length = x.length := by
  refine ⟨?_, rfl, ?_⟩
  · have hw : ∀ w : ℝ, -(w ^ 2) * 0.5 * wd = -0.5 * wd * w ^ 2 := by
      intro w; ring
    simp only [negativ_log_likelihood, specNLL, scale_grad, hw]
  · intro x a b
    simp [normalize_inputs]

/-- The sampling loop follows the pure control skeleton: starting at
iteration `i` with the live parameter state on the trajectory, it ends at the
iteration computed by `loopCtrl`, the final parameters are the trajectory
there, and the buffer receives the snapshots of exactly the iterations listed
by `loopCtrl` (each taken right after that iteration's sampler step). -/
theorem trainLoopAux_bridge (stepFn : P → Mat → Mat → P) (getP : P → S)
    (X Y : Mat) (n_nets bsize burn_in : ℕ) (p0 : P) :
    ∀ (fuel i : ℕ) (samples : List S),
      trainLoopAux stepFn getP X Y n_nets bsize burn_in fuel i
          (paramsAfter stepFn X Y bsize p0 i) samples =
        ((loopCtrl n_nets burn_in fuel i samples.length).1,
         paramsAfter stepFn X Y bsize p0
           (loopCtrl n_nets burn_in fuel i samples.length).1,
         samples ++ (loopCtrl n_nets burn_in fuel i samples.length).2.map
           (fun k => getP (paramsAfter stepFn X Y bsize p0 (k + 1)))) := by
  intro fuel
  induction fuel with
  | zero =>
    intro i samples
    simp [trainLoopAux, loopCtrl]
  | succ n ih =>
    intro i samples
    by_cases hlt : samples.length < n_nets
    · have hstep : stepFn (paramsAfter stepFn X Y bsize p0 i)
          (slice X ((i * bsize) % X.length) bsize)
          (slice Y ((i * bsize) % X.length) bsize) =
          paramsAfter stepFn X Y bsize p0 (i + 1) := rfl
      by_cases happ : i % 200 = 0 ∧ burn_in ≤ i
      · simp only [trainLoopAux, if_pos hlt, if_pos happ]
        rw [hstep, dequeAppend_of_lt _ hlt,
          ih (i + 1) (samples ++ [getP (paramsAfter stepFn X Y bsize p0 (i + 1))])]
        simp only [loopCtrl, if_pos hlt, if_pos happ, List.length_append,
          List.length_singleton, List.map_cons]
        simp [List.append_assoc]
      · simp only [trainLoopAux, if_pos hlt, if_neg happ]
        rw [hstep, ih (i + 1) samples]
        simp only [loopCtrl, if_pos hlt, if_neg happ]
    · simp [trainLoopAux, loopCtrl, hlt]

set_option maxRecDepth 100000 in
/-- Claim C1: the training loop runs while both `iteration < n_iters` and the
sample buffer holds fewer than `n_nets` samples, snapshotting the parameter
state at every iteration `i` with `i % 200 == 0` and `i >= burn_in` (right
after that iteration's sampler step); for `n_iters = 2000`, `burn_in = 0`,
`bsize = 5`, `n_nets = 5` it collects exactly 5 samples, taken at iterations
0, 200, 400, 600, 800, and stops at iteration 801 without exhausting
`n_iters`.  The hypothesis `0 < X.length` matches Python, where an empty
dataset would fail on the modulus in the batch-start computation. -/
theorem train_loop_scenario (stepFn : P → Mat → Mat → P) (getP : P → S)
    (X Y : Mat) (p0 : P) (_hN : 0 < X.length) :
    trainLoop stepFn getP X Y 5 5 0 2000 p0 =
      (801, paramsAfter stepFn X Y 5 p0 801,
        ([0, 200, 400, 600, 800] : List ℕ).map
          (fun k => getP (paramsAfter stepFn X Y 5 p0 (k + 1)))) ∧
    801 < 2000 ∧
    ([0, 200, 400, 600, 800] : List ℕ).length = 5 := by
  refine ⟨?_, by omega, rfl⟩
  have hc : loopCtrl 5 0 2000 0 0 = (801, [0, 200, 400, 600, 800]) := by decide
  show trainLoopAux stepFn getP X Y 5 5 0 2000 0 p0 [] = _
  conv_lhs => rw [show p0 = paramsAfter stepFn X Y 5 p0 0 from rfl]
  rw [trainLoopAux_bridge stepFn getP X Y 5 5 0 p0 2000 0 [],
    List.length_nil, hc]
  simp

/-- Concrete run of `train_loop_scenario` with a step-counting sampler. -/
theorem train_loop_scenario_witness :
    (0 : ℕ) < ([[1]] : Mat).length ∧
    (trainLoop (fun (p : ℕ) (_ _ : Mat) => p + 1) (fun s => s)
          [[1]] [[1]] 5 5 0 2000 0 =
        (801, paramsAfter (fun (p : ℕ) (_ _ : Mat) => p + 1) [[1]] [[1]] 5 0 801,
          ([0, 200, 400, 600, 800] : List ℕ).map
            (fun k => paramsAfter (fun (p : ℕ) (_ _ : Mat) => p + 1)
              [[1]] [[1]] 5 0 (k + 1))) ∧
      801 < 2000 ∧
      ([0, 200, 400, 600, 800] : List ℕ).length = 5) := by
  refine ⟨by simp, ?_⟩
  exact train_loop_scenario (fun (p : ℕ) (_ _ : Mat) => p + 1) (fun s => s)
    [[1]] [[1]] 0 (by simp)

/-- With the live network present, the per-sample loop of `predict` collects
one forward-evaluation output column per buffered sample, in buffer order. -/
theorem predictRows_ok (forward : S → Mat → Mat) (X_ : Mat) :
    ∀ samples : List S,
      predictRows forward true X_ samples =
        Except.ok (samples.map (fun s => col0 (forward s X_)))
  | [] => rfl
  | s :: rest => by
    simp [predictRows, predictRows_ok forward X_ rest]

/-- On a nonempty stack of rows the axis-0 mean reduction is the 1-d array
of per-column means. -/
theorem npMeanAxis0_ne_nil (p : Mat) (hp : p ≠ []) :
    npMeanAxis0 p = NpVec.vec (npMeansOf p) := by
  cases p with
  | nil => exact absurd rfl hp
  | cons a l => rfl

/-- On a nonempty stack of rows the axis-0 variance reduction is the 1-d
array of per-column population variances. -/
theorem npVarAxis0_ne_nil (p : Mat) (hp : p ≠ []) :
    npVarAxis0 p = NpVec.vec (npVarsOf p) := by
  cases p with
  | nil => exact absurd rfl hp
  | cons a l => rfl

/-- Claim C4: `predict` on a trained model with at least one collected
sample aggregates the per-sample forward outputs into a per-test-point mean
and a population variance (each column's squared deviations summed and
divided by the number of collected outputs, which is the number of buffered
samples — not by count minus one), and with `normalize_output` enabled it
denormalizes only the mean (`mean + a * std` entrywise), returning the
variance without any rescaling by `std^2`. -/
theorem predict_mean_var (forward : S → Mat → Mat) (m : SGLDNet S)
    (X_test X_ : Mat) (outs : List (List ℝ)) (ym ys : ℝ)
    (ht : m.is_trained = true) (hnet : m.net = true)
    (hs : m.samples ≠ [])
    (hno : m.normalize_output = true)
    (hym : m.y_mean = some ym) (hys : m.y_std = some ys)
    (hX_ : X_ = if m.normalize_input then
      (normalize_inputs X_test m.x_mean m.x_std).1 else X_test)
    (houts : outs = m.samples.map (fun s => col0 (forward s X_))) :
    predict forward m X_test =
      Except.ok (some (
        (npMeansOf outs).map (fun a => ym + a * ys),
        (List.range (ncols outs)).map (fun j =>
          ((col outs j).map
            (fun a => (a - (col outs j).sum / ((col outs j).length : ℝ)) ^ 2)).sum
            / ((col outs j).length : ℝ)))) ∧
    ∀ j, (col outs j).length = m.samples.length := by
  subst houts hX_
  have houts_ne : m.samples.map (fun s => col0 (forward s
      (if m.normalize_input then (normalize_inputs X_test m.x_mean m.x_std).1
        else X_test))) ≠ [] := by
    intro hmap
    exact hs (List.map_eq_nil_iff.mp hmap)
  constructor
  · simp only [predict, ht, hnet, Bool.true_eq_false, if_false,
      predictRows_ok, hno, if_true, hym, hys,
      npMeanAxis0_ne_nil _ houts_ne, npVarAxis0_ne_nil _ houts_ne,
      denormNpVec, reshapeCol]
    simp [denormVec, denormalize, npVarsOf, lvar, lmean]
  · intro j
    simp [col]

/-- Concrete run of `predict_mean_var`: two samples `0` and `2` whose outputs
at the single test point are `0` and `2`; the mean denormalizes with the
stored `(0, 1)` statistics and the population variance divides by 2. -/
theorem predict_mean_var_witness :
    mC4.is_trained = true ∧ mC4.net = true ∧ mC4.samples ≠ [] ∧
    mC4.normalize_output = true ∧
    mC4.y_mean = some 0 ∧ mC4.y_std = some 1 ∧
    (predict sampleForward mC4 [[1]] =
      Except.ok (some (
        (npMeansOf [[0], [2]]).map (fun a => (0 : ℝ) + a * 1),
        (List.range (ncols [[0], [2]])).map (fun j =>
          ((col [[0], [2]] j).map
            (fun a => (a - (col [[0], [2]] j).sum / ((col [[0], [2]] j).length : ℝ)) ^ 2)).sum
            / ((col [[0], [2]] j).length : ℝ)))) ∧
      ∀ j, (col ([[0], [2]] : Mat) j).length = mC4.samples.length) := by
  refine ⟨rfl, rfl, by simp [mC4], rfl, rfl, rfl, ?_⟩
  exact predict_mean_var sampleForward mC4 [[1]] [[1]] [[0], [2]] 0 1
    rfl rfl (by simp [mC4]) rfl rfl rfl (by simp [mC4])
    (by simp [mC4, sampleForward, col0])

/-- Counterexample to claim C7 as stated: `predict` on an untrained model
(the freshly constructed instance with the source's default
hyperparameters) does not raise any error — it logs and returns `None`
(embedded as `Except.ok none`), a silent null return. -/
theorem predict_untrained_silent_none :
    predict sampleForward mFresh [[1]] = Except.ok none := by
  simp [predict, mFresh, SGLDNet.init]

/-- Claim C7 amended: on a model for which `train` has not run,
`predict` logs and silently returns nothing (`None`) instead of raising;
`sample_functions` performs no `is_trained` check at all: with
`n_funcs >= 1` it fails with an `AttributeError` (the live network
attribute is missing), which is not a dedicated "not trained" error, and
with `n_funcs = 0` it silently returns an empty result. -/
theorem untrained_behavior (forward : S → Mat → Mat) (m : SGLDNet S)
    (X_test : Mat) (k : ℕ)
    (ht : m.is_trained = false) (hnet : m.net = false) :
    predict forward m X_test = Except.ok none ∧
    sample_functions forward m X_test (k + 1) =
      Except.error PyErr.attributeError ∧
    sample_functions forward m X_test 0 = Except.ok [] := by
  refine ⟨?_, ?_, rfl⟩
  · simp [predict, ht]
  · simp [sample_functions, sfRows, hnet]

/-- Concrete run of `untrained_behavior` on the freshly constructed
default instance. -/
theorem untrained_behavior_witness :
    mFresh.is_trained = false ∧ mFresh.net = false ∧
    (predict sampleForward mFresh [[1]] = Except.ok none ∧
      sample_functions sampleForward mFresh [[1]] 1 =
        Except.error PyErr.attributeError ∧
      sample_functions sampleForward mFresh [[1]] 0 = Except.ok []) := by
  refine ⟨rfl, rfl, ?_⟩
  exact untrained_behavior sampleForward mFresh [[1]] 0 rfl rfl

/-- Counterexample to claim C8 as stated: on a trained model whose buffer is
empty, `predict` signals no "empty posterior" error and returns no NaN
statistics either: the aggregation over the empty stack yields 0-d NaN
scalars and the `[:, None]` reshape at line 232 then raises a plain
`IndexError`. -/
theorem predict_empty_posterior_cex :
    predict sampleForward mC8 [[1]] = Except.error PyErr.indexError := by
  simp [predict, mC8, predictRows, npMeanAxis0, npVarAxis0, reshapeCol]

/-- Claim C8 amended: `predict` performs no empty-buffer check: when
training collected zero samples (e.g. `burn_in >= n_iters`), a subsequent
`predict` call aggregates the mean and variance over zero forward outputs
into 0-d NaN scalars and then fails at the final `[:, None]` reshape with a
generic `IndexError` — an unrelated indexing error, not an
"empty posterior" error (when output normalization is on, the broadcast
with the stored `(1,)`-shaped statistics lifts the mean to a 1-d array, and
the reshape of the still-0-d variance raises instead). -/
theorem predict_empty_posterior (forward : S → Mat → Mat) (m : SGLDNet S)
    (X_test : Mat) (ht : m.is_trained = true) (hs : m.samples = [])
    (hy : m.normalize_output = true →
      (∃ ym, m.y_mean = some ym) ∧ (∃ ys, m.y_std = some ys)) :
    predict forward m X_test = Except.error PyErr.indexError := by
  simp only [predict, ht, Bool.true_eq_false, if_false, hs]
  by_cases hno : m.normalize_output = true
  · obtain ⟨⟨ym, hym⟩, ⟨ys, hys⟩⟩ := hy hno
    simp [predictRows, hno, hym, hys, npMeanAxis0, npVarAxis0, denormNpVec,
      reshapeCol]
  · simp [predictRows, hno, npMeanAxis0, npVarAxis0, reshapeCol]

/-- Concrete run of `predict_empty_posterior` on a trained empty-buffer
state with output normalization enabled (the variance reshape raises). -/
theorem predict_empty_posterior_witness :
    mC8w.is_trained = true ∧ mC8w.samples = [] ∧
    predict sampleForward mC8w [[1]] = Except.error PyErr.indexError := by
  refine ⟨rfl, rfl, ?_⟩
  exact predict_empty_posterior sampleForward mC8w [[1]] rfl rfl
    (fun _ => ⟨⟨0, rfl⟩, ⟨1, rfl⟩⟩)

/-- When every requested index is in range, the row loop of
`sample_functions` returns one row per sequentially indexed sample. -/
theorem sfRows_ok (forward : S → Mat → Mat) (m : SGLDNet S) (Xn : Mat)
    (ym ys : ℝ) (hnet : m.net = true)
    (hy : m.normalize_output = true → m.y_mean = some ym ∧ m.y_std = some ys) :
    ∀ (k i : ℕ), i + k ≤ m.samples.length →
      sfRows forward m Xn i k =
        Except.ok (((m.samples.drop i).take k).map (fun s =>
          if m.normalize_output then denormVec (col0 (forward s Xn)) ym ys
          else col0 (forward s Xn))) := by
  intro k
  induction k with
  | zero =>
    intro i _
    simp [sfRows]
  | succ k ih =>
    intro i h
    have hi : i < m.samples.length := by omega
    rw [List.drop_eq_getElem_cons hi, List.take_succ_cons, List.map_cons]
    simp only [sfRows, hnet, if_true, List.getElem?_eq_getElem hi]
    rw [ih (i + 1) (by omega)]
    by_cases hno : m.normalize_output = true
    · obtain ⟨h1, h2⟩ := hy hno
      simp [hno, h1, h2]
    · simp [hno]

/-- When the request overruns the buffer, the row loop of `sample_functions`
raises an `IndexError` (the rows before the overrun are built first, so the
live network and the stored output statistics must be available). -/
theorem sfRows_oob (forward : S → Mat → Mat) (m : SGLDNet S) (Xn : Mat)
    (ym ys : ℝ) (hnet : m.net = true)
    (hy : m.normalize_output = true → m.y_mean = some ym ∧ m.y_std = some ys) :
    ∀ (k i : ℕ), m.samples.length < i + k → 0 < k →
      sfRows forward m Xn i k = Except.error PyErr.indexError := by
  intro k
  induction k with
  | zero =>
    intro i _ hk
    exact absurd hk (by omega)
  | succ k ih =>
    intro i h _
    by_cases hi : i < m.samples.length
    · simp only [sfRows, hnet, if_true, List.getElem?_eq_getElem hi]
      rw [ih (i + 1) (by omega) (by omega)]
      by_cases hno : m.normalize_output = true
      · obtain ⟨h1, h2⟩ := hy hno
        simp [hno, h1, h2]
      · simp [hno]
    · have hnone : m.samples[i]? = none := by
        rw [List.getElem?_eq_none_iff]; omega
      simp [sfRows, hnet, hnone]

/-- Claim C6: `sample_functions(X_test, n_funcs)` fills row `i` (for `i` in
`0..n_funcs`) by loading the buffer's `i`-th stored sample sequentially (not
a random draw) and forward-evaluating it (denormalizing when output
normalization is on), and any call with `n_funcs > len(buffer)` fails with
an out-of-range (`IndexError`) error. -/
theorem sample_functions_sequential (forward : S → Mat → Mat)
    (m : SGLDNet S) (X_test Xn : Mat) (n_funcs : ℕ) (ym ys : ℝ)
    (hnet : m.net = true)
    (hy : m.normalize_output = true → m.y_mean = some ym ∧ m.y_std = some ys)
    (hXn : Xn = if m.normalize_input then
      (normalize_inputs X_test m.x_mean m.x_std).1 else X_test) :
    (n_funcs ≤ m.samples.length →
      sample_functions forward m X_test n_funcs =
        Except.ok ((m.samples.take n_funcs).map (fun s =>
          if m.normalize_output then denormVec (col0 (forward s Xn)) ym ys
          else col0 (forward s Xn)))) ∧
    (m.samples.length < n_funcs →
      sample_functions forward m X_test n_funcs =
        Except.error PyErr.indexError) := by
  subst hXn
  constructor
  · intro h
    rw [sample_functions, sfRows_ok forward m _ ym ys hnet hy n_funcs 0 (by omega)]
    simp
  · intro h
    rw [sample_functions, sfRows_oob forward m _ ym ys hnet hy n_funcs 0 (by omega)
      (by omega)]

/-- Concrete run of `sample_functions_sequential`: two buffered samples `3`
and `4`; asking for 2 rows returns their forward evaluations in buffer
order, asking for 3 rows raises the out-of-range error. -/
theorem sample_functions_sequential_witness :
    mC6.net = true ∧ mC6.samples.length = 2 ∧
    sample_functions sampleForward mC6 [[1]] 2 =
      Except.ok ((mC6.samples.take 2).map (fun s =>
        if mC6.normalize_output then denormVec (col0 (sampleForward s [[1]])) 0 1
        else col0 (sampleForward s [[1]]))) ∧
    sample_functions sampleForward mC6 [[1]] 3 =
      Except.error PyErr.indexError := by
  refine ⟨rfl, rfl, ?_, ?_⟩
  · exact (sample_functions_sequential sampleForward mC6 [[1]] [[1]] 2 0 1 rfl
      (fun hx => by simp [mC6] at hx) (by simp [mC6])).1 (by simp [mC6])
  · exact (sample_functions_sequential sampleForward mC6 [[1]] [[1]] 3 0 1 rfl
      (fun hx => by simp [mC6] at hx) (by simp [mC6])).2 (by simp [mC6])

/-- Input normalization preserves the row count of the dataset. -/
theorem length_normalize_inputs (x : Mat) (a b : Option (List ℝ)) :
    ((normalize_inputs x a b).1).length = x.length := by
  simp [normalize_inputs]

/-- The batch size stored by `train` is the row count of the (normalized)
dataset when that is smaller than the configured batch size, and the
configured batch size otherwise (lines 138-141). -/
theorem train_bsize (stepFn : P → Mat → Mat → P) (getP : P → S) (p0 : P)
    (m : SGLDNet S) (X Y : Mat) :
    (train stepFn getP p0 m X Y).bsize =
      if X.length < m.bsize then X.length else m.bsize := by
  have hXn : (if m.normalize_input then (normalize_inputs X none none).1
      else X).length = X.length := by
    by_cases hni : m.normalize_input = true <;>
      simp [hni, length_normalize_inputs]
  simp only [train]
  rw [hXn]

/-- Claim C10: when `train` is called on a dataset with fewer rows than the
configured `bsize`, the stored `bsize` field itself is permanently
overwritten with the row count `N`, so a later `train` call on the same
instance with a dataset at least that large still uses the reduced batch
size; the other configured hyperparameters (`n_nets`, `l_rate`, `n_iters`,
`noise_std`, `wd`, `burn_in`, `precondition`) are left unchanged by
`train`. -/
theorem train_bsize_frame (stepFn : P → Mat → Mat → P) (getP : P → S)
    (p0 : P) (m : SGLDNet S) (X Y X₂ Y₂ : Mat)
    (h : X.length < m.bsize) (h₂ : X.length ≤ X₂.length) :
    (train stepFn getP p0 m X Y).bsize = X.length ∧
    (train stepFn getP p0 (train stepFn getP p0 m X Y) X₂ Y₂).bsize =
      X.length ∧
    (train stepFn getP p0 m X Y).n_nets = m.n_nets ∧
    (train stepFn getP p0 m X Y).l_rate = m.l_rate ∧
    (train stepFn getP p0 m X Y).n_iters = m.n_iters ∧
    (train stepFn getP p0 m X Y).noise_std = m.noise_std ∧
    (train stepFn getP p0 m X Y).wd = m.wd ∧
    (train stepFn getP p0 m X Y).burn_in = m.burn_in ∧
    (train stepFn getP p0 m X Y).precondition = m.precondition := by
  have h1 : (train stepFn getP p0 m X Y).bsize = X.length := by
    rw [train_bsize, if_pos h]
  refine ⟨h1, ?_, rfl, rfl, rfl, rfl, rfl, rfl, rfl⟩
  rw [train_bsize, h1, if_neg (by omega)]

/-- Concrete run of `train_bsize_frame`: configured `bsize = 1000`, first
dataset with one row, second with two rows. -/
theorem train_bsize_frame_witness :
    ([[1]] : Mat).length < mC10.bsize ∧
    ([[1]] : Mat).length ≤ ([[1], [2]] : Mat).length ∧
    ((train (fun (p : ℕ) (_ _ : Mat) => p) (fun _ => (0 : ℝ)) 0 mC10
        [[1]] [[1]]).bsize = ([[1]] : Mat).length ∧
      (train (fun (p : ℕ) (_ _ : Mat) => p) (fun _ => (0 : ℝ)) 0
        (train (fun (p : ℕ) (_ _ : Mat) => p) (fun _ => (0 : ℝ)) 0 mC10
          [[1]] [[1]]) [[1], [2]] [[1], [2]]).bsize = ([[1]] : Mat).length ∧
      (train (fun (p : ℕ) (_ _ : Mat) => p) (fun _ => (0 : ℝ)) 0 mC10
        [[1]] [[1]]).n_nets = mC10.n_nets ∧
      (train (fun (p : ℕ) (_ _ : Mat) => p) (fun _ => (0 : ℝ)) 0 mC10
        [[1]] [[1]]).l_rate = mC10.l_rate ∧
      (train (fun (p : ℕ) (_ _ : Mat) => p) (fun _ => (0 : ℝ)) 0 mC10
        [[1]] [[1]]).n_iters = mC10.n_iters ∧
      (train (fun (p : ℕ) (_ _ : Mat) => p) (fun _ => (0 : ℝ)) 0 mC10
        [[1]] [[1]]).noise_std = mC10.noise_std ∧
      (train (fun (p : ℕ) (_ _ : Mat) => p) (fun _ => (0 : ℝ)) 0 mC10
        [[1]] [[1]]).wd = mC10.wd ∧
      (train (fun (p : ℕ) (_ _ : Mat) => p) (fun _ => (0 : ℝ)) 0 mC10
        [[1]] [[1]]).burn_in = mC10.burn_in ∧
      (train (fun (p : ℕ) (_ _ : Mat) => p) (fun _ => (0 : ℝ)) 0 mC10
        [[1]] [[1]]).precondition = mC10.precondition) := by
  refine ⟨by decide, by decide, ?_⟩
  exact train_bsize_frame (fun (p : ℕ) (_ _ : Mat) => p) (fun _ => (0 : ℝ)) 0
    mC10 [[1]] [[1]] [[1], [2]] [[1], [2]] (by decide) (by decide)

/-- Denormalizing an affinely normalized row with the same per-column
statistics recovers the row, provided every standard deviation is nonzero. -/
theorem denorm_norm_row : ∀ (r : List ℝ) (ms : List (ℝ × ℝ)),
    r.length ≤ ms.length → (∀ p ∈ ms, p.2 ≠ 0) →
    List.zipWith (fun a q => denormalize a q.1 q.2)
      (List.zipWith (fun a q => (a - q.1) / q.2) r ms) ms = r := by
  intro r
  induction r with
  | nil =>
    intro ms _ _
    simp
  | cons a r ih =>
    intro ms hlen hz
    cases ms with
    | nil => simp at hlen
    | cons q ms =>
      simp only [List.zipWith_cons_cons]
      have hq : q.2 ≠ 0 := hz q (by simp)
      have hval : denormalize ((a - q.1) / q.2) q.1 q.2 = a := by
        rw [denormalize, div_mul_cancel₀ _ hq]
        ring
      rw [hval, ih ms (by simpa using hlen) (fun p hp => hz p (by simp [hp]))]

/-- Claim C9: for every rectangular input array `x` whose per-column standard
deviation is nonzero, denormalizing the output of normalization with the
returned statistics round-trips to `x`, because the inverse is exactly
`data * std + mean`. -/
theorem normalize_roundtrip (x : Mat)
    (hrect : ∀ r ∈ x, r.length = ncols x)
    (hstd : ∀ s ∈ npStdCols x, s ≠ 0) :
    denormalizeMat (normalize_inputs x none none).1
      (normalize_inputs x none none).2.1
      (normalize_inputs x none none).2.2 = x := by
  simp only [normalize_inputs, Option.getD_none, denormalizeMat, List.map_map]
  have hzlen : ((npMeanCols x).zip (npStdCols x)).length = ncols x := by
    simp [npMeanCols, npStdCols]
  have hrow : ∀ r ∈ x,
      List.zipWith (fun a q => denormalize a q.1 q.2)
        (List.zipWith (fun a q => (a - q.1) / q.2) r
          ((npMeanCols x).zip (npStdCols x)))
        ((npMeanCols x).zip (npStdCols x)) = r := by
    intro r hr
    refine denorm_norm_row r _ (by rw [hzlen]; exact (hrect r hr).le) ?_
    intro p hp
    obtain ⟨p1, p2⟩ := p
    exact hstd p2 (List.of_mem_zip hp).2
  calc x.map (fun r =>
        List.zipWith (fun a q => denormalize a q.1 q.2)
          (List.zipWith (fun a q => (a - q.1) / q.2) r
            ((npMeanCols x).zip (npStdCols x)))
          ((npMeanCols x).zip (npStdCols x)))
      = x.map (fun r => r) := List.map_congr_left hrow
    _ = x := List.map_id' x

/-- Concrete run of `normalize_roundtrip` on the one-column dataset
`[[0], [2]]` (mean 1, variance 1, standard deviation 1). -/
theorem normalize_roundtrip_witness :
    (∀ r ∈ ([[0], [2]] : Mat), r.length = ncols [[0], [2]]) ∧
    (∀ s ∈ npStdCols [[0], [2]], s ≠ 0) ∧
    denormalizeMat (normalize_inputs [[0], [2]] none none).1
      (normalize_inputs [[0], [2]] none none).2.1
      (normalize_inputs [[0], [2]] none none).2.2 = [[0], [2]] := by
  have h1 : ∀ r ∈ ([[0], [2]] : Mat), r.length = ncols [[0], [2]] := by
    intro r hr
    rcases List.mem_cons.mp hr with h | h
    · subst h; rfl
    · rcases List.mem_cons.mp h with h2 | h2
      · subst h2; rfl
      · simp at h2
  have hv : lvar (col ([[0], [2]] : Mat) 0) = 1 := by
    norm_num [lvar, lmean, col, List.sum_cons, List.sum_nil]
  have h2 : ∀ s ∈ npStdCols [[0], [2]], s ≠ 0 := by
    intro s hs
    have hrange : List.range (ncols ([[0], [2]] : Mat)) = [0] := by decide
    simp only [npStdCols, hrange, List.map_cons, List.map_nil,
      List.mem_singleton] at hs
    subst hs
    rw [hv, Real.sqrt_one]
    exact one_ne_zero
  exact ⟨h1, h2, normalize_roundtrip [[0], [2]] h1 h2⟩

end BNN
